import Mathlib

/-!
Verification of `monitorable.py` — a cloud resource/alarm auditor.

The script's top-level flow is embedded shallowly:

* CLI arguments and the YAML config become the `Args` and `Config` records;
  the merge-and-validate block (lines 50-118) becomes `validate`, which
  either produces the resolved `Settings` or an `InputError` (the script's
  `input_error` prints the offending value and the supported list, then exits).
* The (region × service) dispatch loop of `get_resources` (lines 133-141)
  becomes `workItems`; the `as_completed` drain loop becomes
  `drainCompletions`, which processes provider results in completion order
  and stops at the first raised exception (the `await completed` there is
  not guarded by any try/except, so the exception propagates).
* `get_alarms` (lines 145-150) becomes `alarmPhase`: `asyncio.wait` waits
  for every task and never re-raises a task's exception, so a failed
  region's contribution is simply absent.
* The whole run (lines 153-215) becomes `runProgram` /`runWith`.

Provider results are opaque to this core (the script merely appends the
object a service class constructor returns), so contributions and
exceptions are modelled as opaque strings.
-/

namespace Monitorable

/-- A resource-discovery work item: a (region, service) pair, as built by the
nested loops of `get_resources`. -/
abbrev WorkItem := String × String

/-- Opaque per-item provider result: the object `service_classes[service](region)`
returns, which `resources.add` merges into the resource set. -/
abbrev Contribution := String

/-- Opaque per-region alarm result recorded by `alarms.get(region)`. -/
abbrev AlarmContribution := String

/-- Opaque raised exception. -/
abbrev Err := String

/-- The CLI arguments of the script (argparse, lines 19-27); `none` is an
absent argument. `regions` and `skip` are the raw comma-separated strings. -/
structure Args where
  format : Option String
  regions : Option String
  skip : Option String
  tag : Option String
  filter : Option String
deriving DecidableEq, Repr

/-- The relevant keys of the YAML config file (lines 29-45); `none` means the
key is absent. -/
structure Config where
  format : Option String
  regions : Option (List String)
  skip : Option (List String)
deriving DecidableEq, Repr

/-- Line 51: the six supported output formats. -/
def supported_formats : List String :=
  ["audit", "json", "yaml", "tags", "cfn-monitor", "cfn-guardian"]

/-- Line 154: the thread pool is created with `max_workers=100`. -/
def max_workers : Nat := 100

/-- The resolved run settings after the merge/validation block. -/
structure Settings where
  output_format : String
  regions : List String
  skip : List String
  tag_group : Bool
  tag_filter : Option String
deriving DecidableEq, Repr

/-- Structured form of `input_error` (lines 67-69): the printed message names
the provided value and lists the supported values, then the process exits. -/
structure InputError where
  arg : String
  provided : String
  supported : List String
deriving DecidableEq, Repr

/-- Lines 94/99/112/118 report `list(set(provided) - set(valid))[0]`: an
element of the given list that is not among the valid ones (Python picks an
arbitrary such element from the set; we take the first in list order). -/
def firstBad (xs valid : List String) : String :=
  (xs.find? (fun x => !(valid.contains x))).getD ""

/-- Lines 73-82: `tag_group`/`tag_filter` resolution. A filter value counts
only when a tag is also given; otherwise `tag_filter` stays `False`. -/
def resolveTag (args : Args) : Bool × Option String :=
  match args.tag with
  | some _ => (true, args.filter)
  | none => (false, none)

/-- Lines 85-89: config `format` applies only when the CLI argument is absent,
and is validated against `supported_formats`. -/
def applyConfigFormat (config : Config) (args : Args) (fmt : String) :
    Except InputError String :=
  match config.format, args.format with
  | some f, none =>
      if f ∈ supported_formats then Except.ok f
      else Except.error ⟨"format", f, supported_formats⟩
  | _, _ => Except.ok fmt

/-- Lines 90-94: config `regions` applies only when the CLI argument is
absent, and every entry must be in the current region list. -/
def applyConfigRegions (config : Config) (args : Args) (regions : List String) :
    Except InputError (List String) :=
  match config.regions, args.regions with
  | some rs, none =>
      if rs.all (fun r => regions.contains r) then Except.ok rs
      else Except.error ⟨"region", firstBad rs regions, regions⟩
  | _, _ => Except.ok regions

/-- Lines 95-99: config `skip` applies only when the CLI argument is absent,
and every entry must be a supported service. -/
def applyConfigSkip (supported_services : List String) (config : Config)
    (args : Args) (skip : List String) : Except InputError (List String) :=
  match config.skip, args.skip with
  | some ks, none =>
      if ks.all (fun k => supported_services.contains k) then Except.ok ks
      else Except.error ⟨"service", firstBad ks supported_services, supported_services⟩
  | _, _ => Except.ok skip

/-- Lines 102-106: CLI `--format`, validated against `supported_formats`. -/
def applyArgFormat (args : Args) (fmt : String) : Except InputError String :=
  match args.format with
  | some f =>
      if f ∈ supported_formats then Except.ok f
      else Except.error ⟨"format", f, supported_formats⟩
  | none => Except.ok fmt

/-- Lines 107-112: CLI `--regions`, split on commas and validated against the
current region list. -/
def applyArgRegions (args : Args) (regions : List String) :
    Except InputError (List String) :=
  match args.regions with
  | some s =>
      let rs := s.splitOn ","
      if rs.all (fun r => regions.contains r) then Except.ok rs
      else Except.error ⟨"region", firstBad rs regions, regions⟩
  | none => Except.ok regions

/-- Lines 113-118: CLI `--skip`, split on commas and validated against the
supported services. -/
def applyArgSkip (supported_services : List String) (args : Args)
    (skip : List String) : Except InputError (List String) :=
  match args.skip with
  | some s =>
      let ks := s.splitOn ","
      if ks.all (fun k => supported_services.contains k) then Except.ok ks
      else Except.error ⟨"service", firstBad ks supported_services, supported_services⟩
  | none => Except.ok skip

/-- The whole merge/validation block (lines 50-118), in source order: the
defaults (`output_format = 'audit'`, `skip = []`, the full region list), then
the three config branches, then the three CLI branches. The first failing
check calls `input_error` and exits. -/
def validate (allRegions supported_services : List String) (config : Config)
    (args : Args) : Except InputError Settings :=
  match applyConfigFormat config args "audit" with
  | Except.error e => Except.error e
  | Except.ok fmt0 =>
  match applyConfigRegions config args allRegions with
  | Except.error e => Except.error e
  | Except.ok regs0 =>
  match applyConfigSkip supported_services config args [] with
  | Except.error e => Except.error e
  | Except.ok skip0 =>
  match applyArgFormat args fmt0 with
  | Except.error e => Except.error e
  | Except.ok fmt =>
  match applyArgRegions args regs0 with
  | Except.error e => Except.error e
  | Except.ok regs =>
  match applyArgSkip supported_services args skip0 with
  | Except.error e => Except.error e
  | Except.ok skp =>
      let tg := resolveTag args
      Except.ok ⟨fmt, regs, skp, tg.1, tg.2⟩

/-- Lines 136-139 of `get_resources`: for each region, for each supported
service not in the skip list, one task is submitted to the executor. The
resulting list is the dispatch list, in submission order. -/
def workItems : List String → List String → List String → List WorkItem
  | [], _, _ => []
  | r :: rs, services, skip =>
      (services.filter (fun s => !skip.contains s)).map (fun s => (r, s))
        ++ workItems rs services skip

/-- Lines 140-141 of `get_resources`: `as_completed` yields results in
completion order; each success is passed to `resources.add` (modelled from
the spec: `lib.resources.Resources.add` is an append-only merge of the
per-item contribution into the resource set). The `await completed` is not
wrapped in any try/except, so the first failure raises out of the loop:
later completions are never added. Returns the resource set built so far
and the propagated exception, if any. -/
def drainCompletions : List (Except Err Contribution) →
    List Contribution × Option Err
  | [] => ([], none)
  | Except.ok c :: rest =>
      let r := drainCompletions rest
      (c :: r.1, r.2)
  | Except.error e :: _ => ([], some e)

/-- The number of completions the drain loop of `get_resources` actually
awaits: every result up to and including the first failure. -/
def awaitedCount : List (Except Err Contribution) → Nat
  | [] => 0
  | Except.ok _ :: rest => awaitedCount rest + 1
  | Except.error _ :: _ => 1

/-- Lines 145-150, `get_alarms`: one task per region runs `alarms.get(region)`
(modelled from the spec: `lib.alarms.Alarms.get` fetches and records the
region's alarms, or fails with a provider error). `asyncio.wait` waits for
every task and never re-raises a task's exception, so the recorded alarm
state holds exactly the regions whose fetch succeeded; a failed region's
contribution is simply absent. -/
def alarmPhase (regions : List String)
    (fetch : String → Except Err AlarmContribution) :
    List (String × AlarmContribution) :=
  regions.filterMap (fun r =>
    match fetch r with
    | Except.ok a => some (r, a)
    | Except.error _ => none)

/-- The observable outcome of the collection-and-render part of the run
(lines 153-215): either an exception propagated out of
`run_until_complete(get_resources(...))` and killed the process (`crashed`,
carrying the resource set built up to that point), or the run `completed`:
resources fully drained, alarms collected when the format is audit, the
grouping/filter stages invoked as flagged, and output rendered. Grouping and
filtering mutate the resources object inside `lib` (outside `src`), so only
whether each stage was invoked is recorded. -/
inductive RunOutcome where
  | crashed (builtResources : List Contribution) (e : Err)
  | completed (resources : List Contribution)
      (alarms : Option (List (String × AlarmContribution)))
      (groupApplied : Bool) (filterApplied : Bool)
deriving DecidableEq, Repr

/-- Lines 153-215 after validation: drain the resource completions (the
completion order of the dispatched tasks is the `order` list, a permutation
of the dispatch list); on success run the alarm phase only when the format
is `audit` (lines 161-162), then apply grouping/filtering as flagged and
render. A propagated exception aborts the run before any of that. -/
def runWith (s : Settings) (order : List WorkItem)
    (discover : WorkItem → Except Err Contribution)
    (fetch : String → Except Err AlarmContribution) : RunOutcome :=
  match drainCompletions (order.map discover) with
  | (builtRes, some e) => RunOutcome.crashed builtRes e
  | (res, none) =>
      RunOutcome.completed res
        (if s.output_format = "audit" then some (alarmPhase s.regions fetch) else none)
        s.tag_group s.tag_filter.isSome

/-- Whether the alarm-collection phase ran at all. -/
def RunOutcome.alarmRan : RunOutcome → Bool
  | RunOutcome.crashed _ _ => false
  | RunOutcome.completed _ a _ _ => a.isSome

/-- Whether `resources.filter_by_tag` (line 172) was invoked. -/
def RunOutcome.filterRan : RunOutcome → Bool
  | RunOutcome.crashed _ _ => false
  | RunOutcome.completed _ _ _ f => f

/-- The resource set as left by the collection loop. -/
def RunOutcome.resourcesOf : RunOutcome → List Contribution
  | RunOutcome.crashed p _ => p
  | RunOutcome.completed rs _ _ _ => rs

/-- The whole program: either validation calls `input_error` and the process
exits before anything is dispatched, or the run proceeds. -/
inductive ProgResult where
  | configError (e : InputError)
  | ran (o : RunOutcome)
deriving DecidableEq, Repr

/-- Top-level flow of the script: validate (lines 50-118), then collect and
render (lines 153-215). The oracles `discover`/`fetch` and the completion
order `order` are consulted only after validation succeeds. -/
def runProgram (allRegions supported_services : List String) (config : Config)
    (args : Args) (order : List WorkItem)
    (discover : WorkItem → Except Err Contribution)
    (fetch : String → Except Err AlarmContribution) : ProgResult :=
  match validate allRegions supported_services config args with
  | Except.error e => ProgResult.configError e
  | Except.ok s => ProgResult.ran (runWith s order discover fetch)

/-- An observable coordinator event: a resource completion awaited by
`get_resources`, or an alarm task dispatched/awaited by `get_alarms`. -/
inductive Event where
  | resourceDone (w : WorkItem)
  | alarmDone (r : String)
deriving DecidableEq, Repr

/-- The coordinator's event trace for one run: `run_until_complete` on line
158 returns (or raises) before line 162 dispatches any alarm task, so every
awaited resource completion precedes every alarm event; on a propagated
resource failure no alarm event ever happens. -/
def runTrace (s : Settings) (order : List WorkItem)
    (discover : WorkItem → Except Err Contribution) : List Event :=
  match (drainCompletions (order.map discover)).2 with
  | some _ =>
      (order.take (awaitedCount (order.map discover))).map Event.resourceDone
  | none =>
      order.map Event.resourceDone
        ++ (if s.output_format = "audit" then s.regions.map Event.alarmDone else [])

/-- A state of the bounded worker pool (line 154,
`ThreadPoolExecutor(max_workers=100)`): tasks not yet picked up, tasks whose
blocking calls are in flight, and finished tasks. -/
structure PoolState where
  pending : List WorkItem
  running : List WorkItem
  done : List WorkItem
deriving DecidableEq, Repr

/-- The pool's transitions, per the executor's contract: an idle slot picks
up the next queued task only while fewer than `W` calls are in flight; a
running call finishes at any time. -/
inductive PoolStep (W : Nat) : PoolState → PoolState → Prop where
  | start (t : WorkItem) (p r d : List WorkItem) :
      r.length < W →
      PoolStep W ⟨t :: p, r, d⟩ ⟨p, t :: r, d⟩
  | finish (t : WorkItem) (p r d : List WorkItem) :
      t ∈ r →
      PoolStep W ⟨p, r, d⟩ ⟨p, r.erase t, t :: d⟩

/-- Pool states reachable from the initial state in which all tasks are
queued up front (lines 136-139 submit everything before any await). -/
inductive PoolReachable (W : Nat) (tasks : List WorkItem) : PoolState → Prop where
  | init : PoolReachable W tasks ⟨tasks, [], []⟩
  | step {s t : PoolState} :
      PoolReachable W tasks s → PoolStep W s t → PoolReachable W tasks t

end Monitorable

namespace Monitorable

/-- Draining a completion list that starts with successes and then a failure
adds exactly the leading successes and propagates the failure. -/
theorem drainCompletions_ok_prefix (pre : List Contribution) (e : Err)
    (post : List (Except Err Contribution)) :
    drainCompletions (pre.map Except.ok ++ Except.error e :: post) = (pre, some e) := by
  induction pre with
  | nil => rfl
  | cons c cs ih => simp [drainCompletions, ih]

/-- Draining an all-success completion list adds every contribution and
raises nothing. -/
theorem drainCompletions_all_ok (cs : List Contribution) :
    drainCompletions (cs.map Except.ok) = (cs, none) := by
  induction cs with
  | nil => rfl
  | cons c cs ih => simp [drainCompletions, ih]

/-- When the CLI `--format` is present the config `format` entry is never
consulted. -/
theorem applyConfigFormat_cli {config : Config} {args : Args} {fmt f : String}
    (h : args.format = some f) :
    applyConfigFormat config args fmt = Except.ok fmt := by
  cases hc : config.format <;> simp [applyConfigFormat, h, hc]

/-- When the CLI `--regions` is present the config `regions` entry is never
consulted. -/
theorem applyConfigRegions_cli {config : Config} {args : Args}
    {regions : List String} {rstr : String} (h : args.regions = some rstr) :
    applyConfigRegions config args regions = Except.ok regions := by
  cases hc : config.regions <;> simp [applyConfigRegions, h, hc]

/-- When the CLI `--skip` is present the config `skip` entry is never
consulted. -/
theorem applyConfigSkip_cli {supported_services : List String} {config : Config}
    {args : Args} {skip : List String} {kstr : String} (h : args.skip = some kstr) :
    applyConfigSkip supported_services config args skip = Except.ok skip := by
  cases hc : config.skip <;> simp [applyConfigSkip, h, hc]

/-- Inversion of a successful validation: every check passed, the format and
region/skip lists came out of the corresponding config/CLI chain, and the
tag fields are exactly those of lines 73-82. -/
theorem validate_ok_inv {allRegions supported_services : List String}
    {config : Config} {args : Args} {s : Settings}
    (hok : validate allRegions supported_services config args = Except.ok s) :
    ∃ fmt0 regs0 skip0,
      applyConfigFormat config args "audit" = Except.ok fmt0
      ∧ applyConfigRegions config args allRegions = Except.ok regs0
      ∧ applyConfigSkip supported_services config args [] = Except.ok skip0
      ∧ applyArgFormat args fmt0 = Except.ok s.output_format
      ∧ applyArgRegions args regs0 = Except.ok s.regions
      ∧ applyArgSkip supported_services args skip0 = Except.ok s.skip
      ∧ s.tag_group = (resolveTag args).1 ∧ s.tag_filter = (resolveTag args).2 := by
  cases h1 : applyConfigFormat config args "audit" with
  | error e => simp [validate, h1] at hok
  | ok fmt0 =>
  cases h2 : applyConfigRegions config args allRegions with
  | error e => simp [validate, h1, h2] at hok
  | ok regs0 =>
  cases h3 : applyConfigSkip supported_services config args [] with
  | error e => simp [validate, h1, h2, h3] at hok
  | ok skip0 =>
  cases h4 : applyArgFormat args fmt0 with
  | error e => simp [validate, h1, h2, h3, h4] at hok
  | ok fmt =>
  cases h5 : applyArgRegions args regs0 with
  | error e => simp [validate, h1, h2, h3, h4, h5] at hok
  | ok regs =>
  cases h6 : applyArgSkip supported_services args skip0 with
  | error e => simp [validate, h1, h2, h3, h4, h5, h6] at hok
  | ok skp =>
    simp [validate, h1, h2, h3, h4, h5, h6] at hok
    refine ⟨fmt0, regs0, skip0, rfl, rfl, rfl, ?_, ?_, ?_, ?_, ?_⟩ <;>
      simp [← hok, h4, h5, h6]

/-- A region list accepted from the config (or left as the default) only
contains known regions, or is the full region list itself. -/
theorem applyConfigRegions_sub {config : Config} {args : Args}
    {allRegions regs0 : List String}
    (h : applyConfigRegions config args allRegions = Except.ok regs0) :
    ∀ x ∈ regs0, x ∈ allRegions := by
  intro x hx
  rcases hc : config.regions with _ | rs
  · simp [applyConfigRegions, hc] at h
    subst h
    exact hx
  · rcases ha : args.regions with _ | rstr
    · simp only [applyConfigRegions, hc, ha] at h
      by_cases hall : ∀ y ∈ rs, y ∈ allRegions
      · rw [if_pos (by simpa using hall)] at h
        cases h
        exact hall x hx
      · rw [if_neg (by simpa using hall)] at h
        cases h
    · simp [applyConfigRegions, hc, ha] at h
      subst h
      exact hx

/-- `firstBad` really names an offending element whenever one exists. -/
theorem firstBad_not_mem {xs valid : List String}
    (h : ¬ xs.all (fun x => valid.contains x) = true) :
    firstBad xs valid ∉ valid := by
  unfold firstBad
  have hex : ∃ x, x ∈ xs ∧ (!(valid.contains x)) = true := by
    simp only [List.all_eq_true] at h
    push_neg at h
    rcases h with ⟨x, hmem, hxv⟩
    exact ⟨x, hmem, by simpa using hxv⟩
  have hsome : (xs.find? (fun x => !(valid.contains x))).isSome := by
    rw [List.find?_isSome]
    simpa using hex
  rcases Option.isSome_iff_exists.1 hsome with ⟨y, hy⟩
  have hpy := List.find?_some hy
  rw [hy]
  simpa using hpy

/-- Any error out of the config `format` check names a value that is not in
the list it reports as valid. -/
theorem applyConfigFormat_error_inv {config : Config} {args : Args}
    {fmt : String} {e : InputError}
    (h : applyConfigFormat config args fmt = Except.error e) :
    e.provided ∉ e.supported := by
  rcases hc : config.format with _ | f
  · simp [applyConfigFormat, hc] at h
  · rcases ha : args.format with _ | g
    · simp only [applyConfigFormat, hc, ha] at h
      by_cases hf : f ∈ supported_formats
      · rw [if_pos hf] at h
        cases h
      · rw [if_neg hf] at h
        cases h
        exact hf
    · simp [applyConfigFormat, hc, ha] at h

/-- Any error out of the config `regions` check names a value that is not in
the list it reports as valid. -/
theorem applyConfigRegions_error_inv {config : Config} {args : Args}
    {regions : List String} {e : InputError}
    (h : applyConfigRegions config args regions = Except.error e) :
    e.provided ∉ e.supported := by
  rcases hc : config.regions with _ | rs
  · simp [applyConfigRegions, hc] at h
  · rcases ha : args.regions with _ | rstr
    · simp only [applyConfigRegions, hc, ha] at h
      by_cases hall : (rs.all (fun r => regions.contains r)) = true
      · rw [if_pos hall] at h
        cases h
      · rw [if_neg hall] at h
        cases h
        exact firstBad_not_mem hall
    · simp [applyConfigRegions, hc, ha] at h

/-- Any error out of the config `skip` check names a value that is not in the
list it reports as valid. -/
theorem applyConfigSkip_error_inv {supported_services : List String}
    {config : Config} {args : Args} {skip : List String} {e : InputError}
    (h : applyConfigSkip supported_services config args skip = Except.error e) :
    e.provided ∉ e.supported := by
  rcases hc : config.skip with _ | ks
  · simp [applyConfigSkip, hc] at h
  · rcases ha : args.skip with _ | kstr
    · simp only [applyConfigSkip, hc, ha] at h
      by_cases hall : (ks.all (fun k => supported_services.contains k)) = true
      · rw [if_pos hall] at h
        cases h
      · rw [if_neg hall] at h
        cases h
        exact firstBad_not_mem hall
    · simp [applyConfigSkip, hc, ha] at h

/-- Any error out of the CLI `--format` check names a value that is not in
the list it reports as valid. -/
theorem applyArgFormat_error_inv {args : Args} {fmt : String} {e : InputError}
    (h : applyArgFormat args fmt = Except.error e) :
    e.provided ∉ e.supported := by
  rcases ha : args.format with _ | f
  · simp [applyArgFormat, ha] at h
  · simp only [applyArgFormat, ha] at h
    by_cases hf : f ∈ supported_formats
    · rw [if_pos hf] at h
      cases h
    · rw [if_neg hf] at h
      cases h
      exact hf

/-- Any error out of the CLI `--regions` check names a value that is not in
the list it reports as valid. -/
theorem applyArgRegions_error_inv {args : Args} {regions : List String}
    {e : InputError} (h : applyArgRegions args regions = Except.error e) :
    e.provided ∉ e.supported := by
  rcases ha : args.regions with _ | rstr
  · simp [applyArgRegions, ha] at h
  · simp only [applyArgRegions, ha] at h
    by_cases hall : ((rstr.splitOn ",").all (fun r => regions.contains r)) = true
    · rw [if_pos hall] at h
      cases h
    · rw [if_neg hall] at h
      cases h
      exact firstBad_not_mem hall

/-- Any error out of the CLI `--skip` check names a value that is not in the
list it reports as valid. -/
theorem applyArgSkip_error_inv {supported_services : List String} {args : Args}
    {skip : List String} {e : InputError}
    (h : applyArgSkip supported_services args skip = Except.error e) :
    e.provided ∉ e.supported := by
  rcases ha : args.skip with _ | kstr
  · simp [applyArgSkip, ha] at h
  · simp only [applyArgSkip, ha] at h
    by_cases hall : ((kstr.splitOn ",").all (fun k => supported_services.contains k)) = true
    · rw [if_pos hall] at h
      cases h
    · rw [if_neg hall] at h
      cases h
      exact firstBad_not_mem hall

/-- Every validation error reports a provided value together with a list of
valid values the provided value is genuinely not in. -/
theorem validate_error_inv {allRegions supported_services : List String}
    {config : Config} {args : Args} {e : InputError}
    (h : validate allRegions supported_services config args = Except.error e) :
    e.provided ∉ e.supported := by
  cases h1 : applyConfigFormat config args "audit" with
  | error e1 =>
    simp [validate, h1] at h
    subst h
    exact applyConfigFormat_error_inv h1
  | ok fmt0 =>
  cases h2 : applyConfigRegions config args allRegions with
  | error e1 =>
    simp [validate, h1, h2] at h
    subst h
    exact applyConfigRegions_error_inv h2
  | ok regs0 =>
  cases h3 : applyConfigSkip supported_services config args [] with
  | error e1 =>
    simp [validate, h1, h2, h3] at h
    subst h
    exact applyConfigSkip_error_inv h3
  | ok skip0 =>
  cases h4 : applyArgFormat args fmt0 with
  | error e1 =>
    simp [validate, h1, h2, h3, h4] at h
    subst h
    exact applyArgFormat_error_inv h4
  | ok fmt =>
  cases h5 : applyArgRegions args regs0 with
  | error e1 =>
    simp [validate, h1, h2, h3, h4, h5] at h
    subst h
    exact applyArgRegions_error_inv h5
  | ok regs =>
  cases h6 : applyArgSkip supported_services args skip0 with
  | error e1 =>
    simp [validate, h1, h2, h3, h4, h5, h6] at h
    subst h
    exact applyArgSkip_error_inv h6
  | ok skp => simp [validate, h1, h2, h3, h4, h5, h6] at h

/-- A pair is dispatched exactly when its region is selected and its service
is supported and not skipped. -/
theorem mem_workItems (regions services skip : List String) (r s : String) :
    (r, s) ∈ workItems regions services skip ↔
      r ∈ regions ∧ s ∈ services ∧ s ∉ skip := by
  induction regions with
  | nil => simp [workItems]
  | cons r0 rs ih =>
    simp only [workItems, List.mem_append, ih]
    constructor
    · intro h
      rcases h with h | h
      · rcases List.mem_map.1 h with ⟨s0, hs0, heq⟩
        rcases List.mem_filter.1 hs0 with ⟨hsv, hsk⟩
        injection heq with h1 h2
        subst h1; subst h2
        refine ⟨List.mem_cons_self _ _, hsv, ?_⟩
        simpa using hsk
      · exact ⟨List.mem_cons_of_mem _ h.1, h.2.1, h.2.2⟩
    · rintro ⟨h1, h2, h3⟩
      rcases List.mem_cons.1 h1 with h1 | h1
      · subst h1
        exact Or.inl (List.mem_map.2 ⟨s, List.mem_filter.2 ⟨h2, by simpa using h3⟩, rfl⟩)
      · exact Or.inr ⟨h1, h2, h3⟩

/-- The dispatch list has one entry per selected region and non-skipped
service. -/
theorem workItems_length (regions services skip : List String) :
    (workItems regions services skip).length
      = regions.length * (services.filter (fun s => !skip.contains s)).length := by
  induction regions with
  | nil => simp [workItems]
  | cons r0 rs ih =>
    simp only [workItems, List.length_append, List.length_map, ih, List.length_cons]
    ring

/-- For duplicate-free selections the dispatch list has no duplicates. -/
theorem workItems_nodup (regions services skip : List String)
    (hr : regions.Nodup) (hs : services.Nodup) :
    (workItems regions services skip).Nodup := by
  induction regions with
  | nil => simp [workItems]
  | cons r0 rs ih =>
    rw [workItems]
    refine List.Nodup.append ?_ (ih (List.nodup_cons.1 hr).2) ?_
    · refine List.Nodup.map ?_ (hs.filter _)
      intro a b hab
      simpa using congrArg Prod.snd hab
    · intro w hwA hwB
      rcases List.mem_map.1 hwA with ⟨s0, _, rfl⟩
      have hmem := (mem_workItems rs services skip r0 s0).1 hwB
      exact (List.nodup_cons.1 hr).1 hmem.1

/-- In a duplicate-free list every member has count one. -/
theorem count_eq_one_of_nodup_workitems {l : List WorkItem} {w : WorkItem}
    (d : l.Nodup) (h : w ∈ l) : l.count w = 1 := by
  induction l with
  | nil => cases h
  | cons a l ih =>
    rcases List.mem_cons.1 h with rfl | h'
    · rw [List.count_cons_self]
      have h0 : l.count w = 0 := List.count_eq_zero.2 (List.nodup_cons.1 d).1
      omega
    · rw [List.count_cons_of_ne]
      · exact ih (List.nodup_cons.1 d).2 h'
      · rintro rfl; exact absurd h' (List.nodup_cons.1 d).1

/-- C3: the dispatch list is exactly the cross product of the regions with
the non-skipped services: membership, size `|regions| × |services - skip|`,
and (for duplicate-free selections) each work item occurs exactly once, so
its provider is invoked exactly once. -/
theorem C3_workitems_cross_product (regions services skip : List String)
    (hr : regions.Nodup) (hs : services.Nodup) :
    (∀ r s : String, (r, s) ∈ workItems regions services skip ↔
        r ∈ regions ∧ s ∈ services ∧ s ∉ skip)
    ∧ (workItems regions services skip).length
        = regions.length * (services.filter (fun s => !skip.contains s)).length
    ∧ ∀ w ∈ workItems regions services skip,
        (workItems regions services skip).count w = 1 := by
  refine ⟨mem_workItems regions services skip, workItems_length regions services skip, ?_⟩
  intro w hw
  exact count_eq_one_of_nodup_workitems (workItems_nodup regions services skip hr hs) hw

/-- Witness for C3 at a concrete selection: two regions, three services, one
skipped. -/
theorem C3_workitems_cross_product_witness :
    (∀ r s : String, (r, s) ∈ workItems ["r1", "r2"] ["ec2", "rds", "s3"] ["rds"] ↔
        r ∈ ["r1", "r2"] ∧ s ∈ ["ec2", "rds", "s3"] ∧ s ∉ ["rds"])
    ∧ (workItems ["r1", "r2"] ["ec2", "rds", "s3"] ["rds"]).length
        = (["r1", "r2"] : List String).length
          * ((["ec2", "rds", "s3"] : List String).filter
              (fun s => !(["rds"] : List String).contains s)).length
    ∧ ∀ w ∈ workItems ["r1", "r2"] ["ec2", "rds", "s3"] ["rds"],
        (workItems ["r1", "r2"] ["ec2", "rds", "s3"] ["rds"]).count w = 1 :=
  C3_workitems_cross_product ["r1", "r2"] ["ec2", "rds", "s3"] ["rds"]
    (by decide) (by decide)

/-- C7: an invalid output format, region name, or service (skip) name, via
CLI argument or config file, makes validation fail before any work item is
dispatched: the whole program reduces to `configError` whatever the
providers and completion order would have been, the process exits
immediately, and the reported error names the offending value and lists the
valid ones (with the named value genuinely not among them). -/
theorem C7_invalid_input_fatal (allRegions supported_services : List String)
    (config : Config) (args : Args)
    (h : (∃ f, args.format = some f ∧ f ∉ supported_formats)
       ∨ (∃ f, config.format = some f ∧ args.format = none ∧ f ∉ supported_formats)
       ∨ (∃ rstr r, args.regions = some rstr ∧ r ∈ rstr.splitOn "," ∧ r ∉ allRegions)
       ∨ (∃ rs r, config.regions = some rs ∧ args.regions = none ∧ r ∈ rs ∧ r ∉ allRegions)
       ∨ (∃ kstr k, args.skip = some kstr ∧ k ∈ kstr.splitOn "," ∧ k ∉ supported_services)
       ∨ (∃ ks k, config.skip = some ks ∧ args.skip = none ∧ k ∈ ks ∧ k ∉ supported_services)) :
    ∃ a p sup,
      validate allRegions supported_services config args = Except.error ⟨a, p, sup⟩
      ∧ p ∉ sup
      ∧ ∀ (order : List WorkItem) (discover : WorkItem → Except Err Contribution)
          (fetch : String → Except Err AlarmContribution),
          runProgram allRegions supported_services config args order discover fetch
            = ProgResult.configError ⟨a, p, sup⟩ := by
  have hnotok : ∀ st : Settings,
      validate allRegions supported_services config args ≠ Except.ok st := by
    intro st hok
    obtain ⟨fmt0, regs0, skip0, h1, h2, h3, h4, h5, h6, -, -⟩ := validate_ok_inv hok
    rcases h with ⟨f, ha, hf⟩ | ⟨f, hc, ha, hf⟩ | ⟨rstr, r, ha, hr, hnr⟩ |
      ⟨rs, r, hc, ha, hr, hnr⟩ | ⟨kstr, k, ha, hk, hnk⟩ | ⟨ks, k, hc, ha, hk, hnk⟩
    · simp only [applyArgFormat, ha] at h4
      rw [if_neg hf] at h4
      cases h4
    · simp only [applyConfigFormat, hc, ha] at h1
      rw [if_neg hf] at h1
      cases h1
    · simp only [applyArgRegions, ha] at h5
      by_cases hall : ((rstr.splitOn ",").all (fun x => regs0.contains x)) = true
      · have hmem : r ∈ regs0 := by simpa using List.all_eq_true.1 hall r hr
        exact hnr (applyConfigRegions_sub h2 r hmem)
      · rw [if_neg hall] at h5
        cases h5
    · simp only [applyConfigRegions, hc, ha] at h2
      by_cases hall : (rs.all (fun x => allRegions.contains x)) = true
      · have hmem : r ∈ allRegions := by simpa using List.all_eq_true.1 hall r hr
        exact hnr hmem
      · rw [if_neg hall] at h2
        cases h2
    · simp only [applyArgSkip, ha] at h6
      by_cases hall : ((kstr.splitOn ",").all (fun x => supported_services.contains x)) = true
      · have hmem : k ∈ supported_services := by simpa using List.all_eq_true.1 hall k hk
        exact hnk hmem
      · rw [if_neg hall] at h6
        cases h6
    · simp only [applyConfigSkip, hc, ha] at h3
      by_cases hall : (ks.all (fun x => supported_services.contains x)) = true
      · have hmem : k ∈ supported_services := by simpa using List.all_eq_true.1 hall k hk
        exact hnk hmem
      · rw [if_neg hall] at h3
        cases h3
  cases hv : validate allRegions supported_services config args with
  | ok st => exact absurd hv (hnotok st)
  | error e =>
    rcases e with ⟨a, p, sup⟩
    refine ⟨a, p, sup, rfl, validate_error_inv hv, ?_⟩
    intro order discover fetch
    simp [runProgram, hv]

/-- Witness for C7: an unsupported `--format bogus` makes the program exit
with a config error naming `bogus`, for any providers. -/
theorem C7_invalid_input_fatal_witness :
    ∃ a p sup,
      validate ["r1"] ["ec2"] ⟨none, none, none⟩
          ⟨some "bogus", none, none, none, none⟩ = Except.error ⟨a, p, sup⟩
      ∧ p ∉ sup
      ∧ ∀ (order : List WorkItem) (discover : WorkItem → Except Err Contribution)
          (fetch : String → Except Err AlarmContribution),
          runProgram ["r1"] ["ec2"] ⟨none, none, none⟩
              ⟨some "bogus", none, none, none, none⟩ order discover fetch
            = ProgResult.configError ⟨a, p, sup⟩ :=
  C7_invalid_input_fatal ["r1"] ["ec2"] ⟨none, none, none⟩
    ⟨some "bogus", none, none, none, none⟩ (Or.inl ⟨"bogus", rfl, by decide⟩)

/-- C1 counterexample: with two dispatched work items of which exactly one
fails (and the failure completes first), the run IS aborted — the loop in
`get_resources` re-raises the provider error, the sibling's successful
contribution is never added, and the final resource set is empty instead of
containing the successful contribution. This refutes the claim that a single
failing work item leaves the run running with the other contributions
intact. -/
theorem C1_counterexample :
    runWith ⟨"json", ["r1"], [], false, none⟩ [("r1", "ec2"), ("r1", "s3")]
        (fun w => if w = ("r1", "ec2") then Except.error "boom" else Except.ok "c0")
        (fun _ => Except.ok "a")
      = RunOutcome.crashed [] "boom"
    ∧ (∀ rs al g f, RunOutcome.crashed ([] : List Contribution) "boom"
        ≠ RunOutcome.completed rs al g f)
    ∧ ("c0" : Contribution) ∉ ([] : List Contribution) := by
  refine ⟨rfl, ?_, by simp⟩
  intro rs al g f hcontra
  cases hcontra

/-- C1 amended: when one work item fails, the raw exception propagates out of
`get_resources` and aborts the run; the final resource set holds exactly the
contributions whose completions were awaited before the failure, later
completions are absent, and the propagated error is the provider exception
itself, not identified by (region, service). -/
theorem C1_single_failure_aborts (s : Settings) (order : List WorkItem)
    (discover : WorkItem → Except Err Contribution)
    (fetch : String → Except Err AlarmContribution)
    (pre : List Contribution) (e : Err) (post : List (Except Err Contribution))
    (h : order.map discover = pre.map Except.ok ++ Except.error e :: post) :
    runWith s order discover fetch = RunOutcome.crashed pre e := by
  unfold runWith
  rw [h, drainCompletions_ok_prefix]

/-- Witness for the amended C1: a success completing before the failure is
kept, the failure aborts the run. -/
theorem C1_single_failure_aborts_witness :
    runWith ⟨"audit", ["r1"], [], false, none⟩ [("r1", "ec2"), ("r1", "s3")]
        (fun w => if w = ("r1", "s3") then Except.error "err2" else Except.ok "c1")
        (fun _ => Except.ok "a")
      = RunOutcome.crashed ["c1"] "err2" :=
  C1_single_failure_aborts ⟨"audit", ["r1"], [], false, none⟩
    [("r1", "ec2"), ("r1", "s3")]
    (fun w => if w = ("r1", "s3") then Except.error "err2" else Except.ok "c1")
    (fun _ => Except.ok "a") ["c1"] "err2" [] (by rfl)

/-- C2 counterexample: `--filter prod` without `--tag` is NOT a fatal
configuration error — the run validates, collects, renders, and never
invokes `filter_by_tag`; the filter is silently ignored (lines 76-82 leave
`tag_filter = False` whenever no tag is given). -/
theorem C2_counterexample :
    runProgram ["r1"] ["ec2"] ⟨none, none, none⟩
        ⟨none, none, none, none, some "prod"⟩
        [("r1", "ec2")] (fun _ => Except.ok "c0") (fun _ => Except.ok "a")
      = ProgResult.ran
          (RunOutcome.completed ["c0"] (some [("r1", "a")]) false false) := by
  rfl

/-- C2 amended: a tag-filter value requested without a grouping tag key is
silently ignored: validation still succeeds with `tag_filter = False`, and
`filter_by_tag` is never invoked during the run. -/
theorem C2_filter_without_tag_ignored (allRegions supported_services : List String)
    (config : Config) (args : Args) (hnotag : args.tag = none) (s : Settings)
    (hok : validate allRegions supported_services config args = Except.ok s) :
    s.tag_filter = none
    ∧ ∀ (order : List WorkItem) (discover : WorkItem → Except Err Contribution)
        (fetch : String → Except Err AlarmContribution),
        RunOutcome.filterRan (runWith s order discover fetch) = false := by
  obtain ⟨fmt0, regs0, skip0, -, -, -, -, -, -, -, htf⟩ := validate_ok_inv hok
  have htf2 : s.tag_filter = none := by
    simpa [resolveTag, hnotag] using htf
  refine ⟨htf2, ?_⟩
  intro order discover fetch
  unfold runWith
  split
  · rfl
  · simp [RunOutcome.filterRan, htf2]

/-- Witness for the amended C2: a run with `--filter prod` and no tag
resolves `tag_filter` to `False` and never filters. -/
theorem C2_filter_without_tag_ignored_witness :
    (⟨"audit", ["r1"], [], false, none⟩ : Settings).tag_filter = none
    ∧ ∀ (order : List WorkItem) (discover : WorkItem → Except Err Contribution)
        (fetch : String → Except Err AlarmContribution),
        RunOutcome.filterRan
            (runWith ⟨"audit", ["r1"], [], false, none⟩ order discover fetch)
          = false :=
  C2_filter_without_tag_ignored ["r1"] ["ec2"] ⟨none, none, none⟩
    ⟨none, none, none, none, some "prod"⟩ rfl
    ⟨"audit", ["r1"], [], false, none⟩ (by rfl)

/-- C4: for a run whose resource phase completes without a propagated
exception, the alarm phase executes exactly when the selected format is
`audit` (lines 161-162), and the choice of output format has no effect on
the collected resource set. -/
theorem C4_alarm_phase_iff_audit (s : Settings) (order : List WorkItem)
    (discover : WorkItem → Except Err Contribution)
    (fetch : String → Except Err AlarmContribution)
    (res : List Contribution)
    (hres : drainCompletions (order.map discover) = (res, none)) :
    (RunOutcome.alarmRan (runWith s order discover fetch) = true ↔
        s.output_format = "audit")
    ∧ ∀ fmt : String,
        RunOutcome.resourcesOf
            (runWith { s with output_format := fmt } order discover fetch)
          = RunOutcome.resourcesOf (runWith s order discover fetch) := by
  constructor
  · unfold runWith
    rw [hres]
    by_cases hf : s.output_format = "audit" <;>
      simp [RunOutcome.alarmRan, hf]
  · intro fmt
    unfold runWith
    rw [hres]
    simp [RunOutcome.resourcesOf]

/-- Witness for C4 at a concrete non-audit run: the alarm phase is skipped
and the resource set is format-independent. -/
theorem C4_alarm_phase_iff_audit_witness :
    (RunOutcome.alarmRan (runWith ⟨"json", ["r1"], [], false, none⟩ []
        (fun _ => Except.ok "c") (fun _ => Except.ok "a")) = true ↔
      (Settings.mk "json" ["r1"] [] false none).output_format = "audit")
    ∧ ∀ fmt : String,
        RunOutcome.resourcesOf
            (runWith { Settings.mk "json" ["r1"] [] false none with
                output_format := fmt } []
              (fun _ => Except.ok "c") (fun _ => Except.ok "a"))
          = RunOutcome.resourcesOf (runWith ⟨"json", ["r1"], [], false, none⟩ []
              (fun _ => Except.ok "c") (fun _ => Except.ok "a")) :=
  C4_alarm_phase_iff_audit ⟨"json", ["r1"], [], false, none⟩ []
    (fun _ => Except.ok "c") (fun _ => Except.ok "a") [] (by rfl)

/-- Positionally, an element of `A ++ B` either sits in `A` at an index below
`A.length` or in `B` at an index at least `A.length`. -/
theorem get_append_cases {α : Type} (A B : List α) (k : Nat)
    (hk : k < (A ++ B).length) :
    (k < A.length ∧ (A ++ B).get ⟨k, hk⟩ ∈ A)
    ∨ (A.length ≤ k ∧ (A ++ B).get ⟨k, hk⟩ ∈ B) := by
  induction A generalizing k with
  | nil =>
    right
    exact ⟨Nat.zero_le _, List.get_mem _ _ _⟩
  | cons a A ih =>
    cases k with
    | zero =>
      left
      exact ⟨Nat.succ_pos _, List.mem_cons_self _ _⟩
    | succ k =>
      have hk2 : k < (A ++ B).length := by
        simpa using Nat.lt_of_succ_lt_succ hk
      rcases ih k hk2 with ⟨h1, h2⟩ | ⟨h1, h2⟩
      · left
        exact ⟨Nat.succ_lt_succ h1, List.mem_cons_of_mem _ h2⟩
      · right
        exact ⟨Nat.succ_le_succ h1, h2⟩

/-- The coordinator trace always splits into a block of resource completions
followed by a block of alarm events. -/
theorem runTrace_shape (s : Settings) (order : List WorkItem)
    (discover : WorkItem → Except Err Contribution) :
    ∃ A B : List Event,
      runTrace s order discover = A ++ B
      ∧ (∀ x ∈ A, ∃ w, x = Event.resourceDone w)
      ∧ (∀ x ∈ B, ∃ r, x = Event.alarmDone r) := by
  unfold runTrace
  split
  · refine ⟨_, [], (List.append_nil _).symm, ?_, by simp⟩
    intro x hx
    rcases List.mem_map.1 hx with ⟨w, -, rfl⟩
    exact ⟨w, rfl⟩
  · refine ⟨order.map Event.resourceDone, _, rfl, ?_, ?_⟩
    · intro x hx
      rcases List.mem_map.1 hx with ⟨w, -, rfl⟩
      exact ⟨w, rfl⟩
    · intro x hx
      by_cases hf : s.output_format = "audit"
      · rw [if_pos hf] at hx
        rcases List.mem_map.1 hx with ⟨r, -, rfl⟩
        exact ⟨r, rfl⟩
      · rw [if_neg hf] at hx
        cases hx

/-- C5: the two phases are strictly sequential — in the coordinator's event
trace every resource completion precedes every alarm event, and on a crashed
resource phase no alarm event occurs at all. -/
theorem C5_phases_sequential (s : Settings) (order : List WorkItem)
    (discover : WorkItem → Except Err Contribution)
    (i j : Nat) (hi : i < (runTrace s order discover).length)
    (hj : j < (runTrace s order discover).length)
    (w : WorkItem) (r : String)
    (hri : (runTrace s order discover).get ⟨i, hi⟩ = Event.resourceDone w)
    (haj : (runTrace s order discover).get ⟨j, hj⟩ = Event.alarmDone r) :
    i < j := by
  obtain ⟨A, B, ht, hA, hB⟩ := runTrace_shape s order discover
  revert hri haj hi hj
  rw [ht]
  intro hi hj hri haj
  rcases get_append_cases A B i hi with ⟨hiA, hmem⟩ | ⟨hiA, hmem⟩
  · rcases get_append_cases A B j hj with ⟨hjA, hmemj⟩ | ⟨hjA, hmemj⟩
    · exfalso
      rcases hA _ hmemj with ⟨w2, hw2⟩
      rw [haj] at hw2
      cases hw2
    · omega
  · exfalso
    rcases hB _ hmem with ⟨r2, hr2⟩
    rw [hri] at hr2
    cases hr2

/-- Witness for C5 at a concrete audit run with one resource item and one
region: the resource completion sits strictly before the alarm event. -/
theorem C5_phases_sequential_witness :
    (runTrace ⟨"audit", ["r1"], [], false, none⟩ [("r1", "ec2")]
        (fun _ => Except.ok "c")).get ⟨0, by decide⟩
      = Event.resourceDone ("r1", "ec2")
    ∧ (runTrace ⟨"audit", ["r1"], [], false, none⟩ [("r1", "ec2")]
        (fun _ => Except.ok "c")).get ⟨1, by decide⟩
      = Event.alarmDone "r1"
    ∧ (0 : Nat) < 1 :=
  ⟨rfl, rfl,
    C5_phases_sequential ⟨"audit", ["r1"], [], false, none⟩ [("r1", "ec2")]
      (fun _ => Except.ok "c") 0 1 (by decide) (by decide)
      ("r1", "ec2") "r1" rfl rfl⟩

/-- C6: in an audit run whose resource phase completed, one region's alarm
fetch failing does not stop the alarm phase: the run still completes and
renders, the failed region is absent from the recorded alarm state, and
every other (successful) region is present. -/
theorem C6_alarm_failure_isolated (s : Settings) (order : List WorkItem)
    (discover : WorkItem → Except Err Contribution)
    (fetch : String → Except Err AlarmContribution)
    (res : List Contribution)
    (hres : drainCompletions (order.map discover) = (res, none))
    (hfmt : s.output_format = "audit")
    (r0 : String) (e : Err) (hr0 : r0 ∈ s.regions)
    (hfail : fetch r0 = Except.error e)
    (hrest : ∀ r ∈ s.regions, r ≠ r0 → ∃ a, fetch r = Except.ok a) :
    runWith s order discover fetch
        = RunOutcome.completed res (some (alarmPhase s.regions fetch))
            s.tag_group s.tag_filter.isSome
    ∧ r0 ∉ (alarmPhase s.regions fetch).map Prod.fst
    ∧ ∀ r ∈ s.regions, r ≠ r0 → r ∈ (alarmPhase s.regions fetch).map Prod.fst := by
  refine ⟨?_, ?_, ?_⟩
  · unfold runWith
    rw [hres, if_pos hfmt]
  · intro hmem
    rcases List.mem_map.1 hmem with ⟨⟨r2, a⟩, hin, hfst⟩
    dsimp at hfst
    subst hfst
    rcases List.mem_filterMap.1 hin with ⟨r3, hr3, heq⟩
    cases hf : fetch r3 with
    | ok a2 =>
      rw [hf] at heq
      cases heq
      rw [hfail] at hf
      cases hf
    | error e2 =>
      rw [hf] at heq
      cases heq
  · intro r hr hne
    rcases hrest r hr hne with ⟨a, ha⟩
    refine List.mem_map.2 ⟨(r, a), ?_, rfl⟩
    refine List.mem_filterMap.2 ⟨r, hr, ?_⟩
    rw [ha]

/-- Witness for C6: region `r1` fails, region `r2` succeeds; the run
completes with `r2` recorded and `r1` absent. -/
theorem C6_alarm_failure_isolated_witness :
    runWith ⟨"audit", ["r1", "r2"], [], false, none⟩ [] (fun _ => Except.ok "c")
        (fun r => if r = "r1" then Except.error "x" else Except.ok "a")
      = RunOutcome.completed []
          (some (alarmPhase ["r1", "r2"]
            (fun r => if r = "r1" then Except.error "x" else Except.ok "a")))
          false false
    ∧ "r1" ∉ (alarmPhase ["r1", "r2"]
        (fun r => if r = "r1" then Except.error "x" else Except.ok "a")).map Prod.fst
    ∧ ∀ r ∈ (["r1", "r2"] : List String), r ≠ "r1" →
        r ∈ (alarmPhase ["r1", "r2"]
          (fun r => if r = "r1" then Except.error "x" else Except.ok "a")).map Prod.fst :=
  C6_alarm_failure_isolated ⟨"audit", ["r1", "r2"], [], false, none⟩ []
    (fun _ => Except.ok "c")
    (fun r => if r = "r1" then Except.error "x" else Except.ok "a")
    [] (by rfl) (by rfl) "r1" "x" (by simp) (by rfl)
    (by
      intro r hr hne
      rcases List.mem_cons.1 hr with rfl | hr2
      · exact absurd rfl hne
      · rcases List.mem_cons.1 hr2 with rfl | hr3
        · exact ⟨"a", rfl⟩
        · cases hr3)

/-- C8: under the bounded worker-pool semantics of
`ThreadPoolExecutor(max_workers=100)` — a slot picks up a queued task only
while fewer than `max_workers` calls are in flight — every reachable pool
state has at most `max_workers = 100` remote calls concurrently in flight. -/
theorem C8_bounded_worker_pool (tasks : List WorkItem) (st : PoolState)
    (h : PoolReachable max_workers tasks st) :
    st.running.length ≤ max_workers := by
  induction h with
  | init => simp [max_workers]
  | step hprev hstep ih =>
    cases hstep with
    | start t p r d hlt => simpa using hlt
    | finish t p r d hmem =>
      calc (r.erase t).length ≤ r.length := (List.erase_sublist t r).length_le
        _ ≤ max_workers := ih

/-- Witness for C8 at the initial state of a one-item dispatch. -/
theorem C8_bounded_worker_pool_witness :
    (PoolState.mk ([("r1", "ec2")] : List WorkItem) [] []).running.length
      ≤ max_workers :=
  C8_bounded_worker_pool [("r1", "ec2")] (PoolState.mk [("r1", "ec2")] [] [])
    PoolReachable.init

/-- C9: with no `--format` argument and no `format` config entry, validation
resolves the output format to the default `audit` (line 52), and
consequently a run whose resource phase completes executes the alarm
phase. -/
theorem C9_default_format_audit (allRegions supported_services : List String)
    (config : Config) (args : Args) (s : Settings)
    (hargs : args.format = none) (hcfg : config.format = none)
    (hok : validate allRegions supported_services config args = Except.ok s) :
    s.output_format = "audit"
    ∧ ∀ (order : List WorkItem) (discover : WorkItem → Except Err Contribution)
        (fetch : String → Except Err AlarmContribution)
        (res : List Contribution),
        drainCompletions (order.map discover) = (res, none) →
        RunOutcome.alarmRan (runWith s order discover fetch) = true := by
  obtain ⟨fmt0, regs0, skip0, h1, -, -, h4, -, -, -, -⟩ := validate_ok_inv hok
  have hfmt : s.output_format = "audit" := by
    simp [applyConfigFormat, hcfg] at h1
    subst h1
    simp [applyArgFormat, hargs] at h4
    exact h4.symm
  refine ⟨hfmt, ?_⟩
  intro order discover fetch res hres
  unfold runWith
  rw [hres, if_pos hfmt]
  simp [RunOutcome.alarmRan]

/-- Witness for C9: an empty config and no CLI format give an audit run that
collects alarms. -/
theorem C9_default_format_audit_witness :
    (Settings.mk "audit" ["r1"] [] false none).output_format = "audit"
    ∧ ∀ (order : List WorkItem) (discover : WorkItem → Except Err Contribution)
        (fetch : String → Except Err AlarmContribution)
        (res : List Contribution),
        drainCompletions (order.map discover) = (res, none) →
        RunOutcome.alarmRan
            (runWith ⟨"audit", ["r1"], [], false, none⟩ order discover fetch)
          = true :=
  C9_default_format_audit ["r1"] ["ec2"] ⟨none, none, none⟩
    ⟨none, none, none, none, none⟩ ⟨"audit", ["r1"], [], false, none⟩
    rfl rfl (by rfl)

/-- C10: for each of format, regions and skip, a present CLI argument makes
the config entry irrelevant — validation gives the same result whatever that
config entry holds (so an invalid config value raises no error then) — and
the CLI value is the one that ends up in the settings. -/
theorem C10_cli_precedence (allRegions supported_services : List String)
    (config : Config) (args : Args) :
    (∀ f x, args.format = some f →
        validate allRegions supported_services { config with format := x } args
          = validate allRegions supported_services config args)
    ∧ (∀ rstr x, args.regions = some rstr →
        validate allRegions supported_services { config with regions := x } args
          = validate allRegions supported_services config args)
    ∧ (∀ kstr x, args.skip = some kstr →
        validate allRegions supported_services { config with skip := x } args
          = validate allRegions supported_services config args)
    ∧ (∀ f s, args.format = some f →
        validate allRegions supported_services config args = Except.ok s →
        s.output_format = f)
    ∧ (∀ rstr s, args.regions = some rstr →
        validate allRegions supported_services config args = Except.ok s →
        s.regions = rstr.splitOn ",")
    ∧ (∀ kstr s, args.skip = some kstr →
        validate allRegions supported_services config args = Except.ok s →
        s.skip = kstr.splitOn ",") := by
  refine ⟨?_, ?_, ?_, ?_, ?_, ?_⟩
  · intro f x hf
    unfold validate
    rw [applyConfigFormat_cli hf, applyConfigFormat_cli hf]
    rfl
  · intro rstr x hr
    unfold validate
    rw [applyConfigRegions_cli hr, applyConfigRegions_cli hr]
    rfl
  · intro kstr x hk
    unfold validate
    rw [applyConfigSkip_cli hk, applyConfigSkip_cli hk]
    rfl
  · intro f s hf hok
    obtain ⟨fmt0, regs0, skip0, -, -, -, h4, -, -, -, -⟩ := validate_ok_inv hok
    simp only [applyArgFormat, hf] at h4
    by_cases hin : f ∈ supported_formats
    · rw [if_pos hin] at h4
      injection h4 with h4
      exact h4.symm
    · rw [if_neg hin] at h4
      cases h4
  · intro rstr s hr hok
    obtain ⟨fmt0, regs0, skip0, -, -, -, -, h5, -, -, -⟩ := validate_ok_inv hok
    simp only [applyArgRegions, hr] at h5
    by_cases hall : ((rstr.splitOn ",").all (fun r => regs0.contains r)) = true
    · rw [if_pos hall] at h5
      injection h5 with h5
      exact h5.symm
    · rw [if_neg hall] at h5
      cases h5
  · intro kstr s hk hok
    obtain ⟨fmt0, regs0, skip0, -, -, -, -, -, h6, -, -⟩ := validate_ok_inv hok
    simp only [applyArgSkip, hk] at h6
    by_cases hall : ((kstr.splitOn ",").all (fun k => supported_services.contains k)) = true
    · rw [if_pos hall] at h6
      injection h6 with h6
      exact h6.symm
    · rw [if_neg hall] at h6
      cases h6

/-- Witness for C10: an invalid config `format` entry is harmless when
`--format json` is given, and the CLI value wins. -/
theorem C10_cli_precedence_witness :
    validate ["r1"] ["ec2"] ⟨some "bogus", none, none⟩
        ⟨some "json", none, none, none, none⟩
      = validate ["r1"] ["ec2"] ⟨none, none, none⟩
          ⟨some "json", none, none, none, none⟩
    ∧ (Settings.mk "json" ["r1"] [] false none).output_format = "json" := by
  constructor
  · exact (C10_cli_precedence ["r1"] ["ec2"] ⟨none, none, none⟩
      ⟨some "json", none, none, none, none⟩).1 "json" (some "bogus") rfl
  · exact (C10_cli_precedence ["r1"] ["ec2"] ⟨none, none, none⟩
      ⟨some "json", none, none, none, none⟩).2.2.2.1 "json"
      ⟨"json", ["r1"], [], false, none⟩ rfl (by rfl)

end Monitorable
